import Mathlib

/-!
Verification development for the warehouse bot (`main.py`).

The file shallowly embeds the program's core in Lean 4:

* the statement validator `validate_sql` (source lines 149-176), including
  faithful executable models of its four regular expressions;
* the transactional executor `run_sql` (lines 255-274) over an abstract
  SQLite statement semantics;
* the context assembler `build_stock_context` (lines 219-235);
* the message pipeline `on_message` (lines 349-395);
* the data model and seeded initial store (lines 56-94).

Machine strings are `String`/`List Char`; regex matching is modelled by
executable scanners that implement the exact semantics of the patterns in
the source (case-insensitive matching, `\b` word boundaries where a word
character is `[A-Za-z0-9_]` or a Cyrillic letter, `\s` whitespace, and `.`
not crossing a newline).
-/

/-- Python whitespace (`str.strip` default set and regex `\s` on ASCII). -/
def isPySpace (c : Char) : Bool :=
  c == ' ' || c == '\t' || c == '\n' || c == '\r' || c == '\x0b' || c == '\x0c'

/-- Model of Python `str.strip()`. -/
def pyStrip (s : String) : String :=
  String.mk (((s.data.dropWhile isPySpace).reverse.dropWhile isPySpace).reverse)

/-- Model of Python `str.split(";")`: split at every `;`, keeping empty pieces. -/
def splitSemi : List Char → List (List Char)
  | [] => [[]]
  | c :: cs =>
    if c == ';' then [] :: splitSemi cs
    else
      match splitSemi cs with
      | [] => [[c]]
      | p :: ps => (c :: p) :: ps

/-- `\s*` — drop the maximal whitespace run (the leading `^\s*` of the patterns). -/
def dropWs (s : List Char) : List Char := s.dropWhile isPySpace

/-- `\s+` — require at least one whitespace character, then drop the run. -/
def ws1 : List Char → Option (List Char)
  | [] => none
  | c :: cs => if isPySpace c then some (cs.dropWhile isPySpace) else none

/-- Word character for `\b` boundaries: Python `\w` restricted to ASCII
alphanumerics, underscore and the Cyrillic block used by the bot's data. -/
def wordChar (c : Char) : Bool :=
  c.isAlphanum || c == '_' || (decide (0x400 ≤ c.toNat) && decide (c.toNat ≤ 0x4FF))

/-- `\b` at the end of a verb: next character is a non-word character, or end. -/
def atWordEnd : List Char → Bool
  | [] => true
  | c :: _ => !wordChar c

/-- Case-insensitive literal match: on success return the rest of the input. -/
def stripCI : List Char → List Char → Option (List Char)
  | [], s => some s
  | _ :: _, [] => none
  | p :: ps, c :: cs => if p.toLower == c.toLower then stripCI ps cs else none

/-- Case-insensitive "starts with". -/
def startsWithCI (pat s : List Char) : Bool := (stripCI pat s).isSome

/-- Does the input begin with one of the verbs (case-insensitively), followed
by a word boundary?  Shared shape of the verb alternations of the patterns. -/
def anyVerbCI (verbs : List String) (s : List Char) : Bool :=
  verbs.any fun v =>
    match stripCI v.data s with
    | some r => atWordEnd r
    | none => false

/-- Model of `FORBIDDEN_PATTERN.match`:
`^\s*(DROP|ALTER|TRUNCATE|PRAGMA|ATTACH|DETACH)\b`, case-insensitive. -/
def forbiddenMatch (s : List Char) : Bool :=
  anyVerbCI ["DROP", "ALTER", "TRUNCATE", "PRAGMA", "ATTACH", "DETACH"] (dropWs s)

/-- The four permitted DML verbs with a trailing word boundary. -/
def dmlVerbHere (s : List Char) : Bool :=
  anyVerbCI ["SELECT", "INSERT", "UPDATE", "DELETE"] s

/-- Scanner for the `WITH\b[\s\S]+?\b(SELECT|INSERT|UPDATE|DELETE)` tail:
look for a DML verb at some position `≥ 1` of the remainder whose preceding
character is a non-word character (the `\b` before the verb). -/
def withGapScan : Char → List Char → Bool
  | _, [] => false
  | prev, c :: cs => (!wordChar prev && dmlVerbHere (c :: cs)) || withGapScan c cs

/-- The `WITH`-prefixed branch of `SAFE_SQL_PATTERN`: `WITH` (case-insensitive),
a word boundary (so the next character is non-word), at least one consumed
character, then a word boundary followed by a DML verb with trailing boundary. -/
def safeWithBranch (cs : List Char) : Bool :=
  match stripCI "WITH".data cs with
  | none => false
  | some [] => false
  | some (r0 :: rr) => !wordChar r0 && withGapScan r0 rr

/-- Model of `SAFE_SQL_PATTERN.match`:
`^\s*(WITH\b[\s\S]+?\b(SELECT|INSERT|UPDATE|DELETE)|SELECT|INSERT|UPDATE|DELETE)\b`,
case-insensitive. -/
def safeMatch (s : List Char) : Bool :=
  dmlVerbHere (dropWs s) || safeWithBranch (dropWs s)

/-- Model of `re.match(r"^\s*DELETE\s+FROM\s+<table>\b", s, re.I)`. -/
def delFromTable (table : String) (s : List Char) : Bool :=
  match stripCI "DELETE".data (dropWs s) with
  | none => false
  | some r1 =>
    match ws1 r1 with
    | none => false
    | some r2 =>
      match stripCI "FROM".data r2 with
      | none => false
      | some r3 =>
        match ws1 r3 with
        | none => false
        | some r4 =>
          match stripCI table.data r4 with
          | none => false
          | some r5 => atWordEnd r5

/-- `^\s*DELETE\s+FROM\s+stock\b` (case-insensitive). -/
def delFromStock (s : List Char) : Bool := delFromTable "stock" s

/-- `^\s*DELETE\s+FROM\s+items\b` (case-insensitive). -/
def delFromItems (s : List Char) : Bool := delFromTable "items" s

/-- Character at index `i` (blank when out of range; callers guard the range). -/
def wordCharAt (s : List Char) (i : Nat) : Bool := wordChar (s.getD i ' ')

/-- `\b` immediately before a word character at index `i`. -/
def boundaryBefore (s : List Char) (i : Nat) : Bool :=
  i == 0 || !wordCharAt s (i - 1)

/-- `\b` immediately after a word character ending at index `i - 1`. -/
def boundaryAfter (s : List Char) (i : Nat) : Bool :=
  decide (s.length ≤ i) || !wordCharAt s i

/-- Occurrence of `\b<tok>\b` (case-insensitive) at index `i` of `s`. -/
def tokenAt (tok : String) (s : List Char) (i : Nat) : Bool :=
  startsWithCI tok.data (s.drop i) && boundaryBefore s i &&
    boundaryAfter s (i + tok.length)

/-- No newline among characters `a ≤ idx < b` — regex `.` does not cross `\n`. -/
def noNewlineBetween (s : List Char) (a b : Nat) : Bool :=
  ((s.drop a).take (b - a)).all fun c => c != '\n'

/-- Model of `re.search(r"\bWHERE\b.*\bitem_id\b.*\blocation_code\b", s, re.I)`:
there are positions `i ≤ i+5 ≤ j` and `j+7 ≤ k` carrying whole-word
occurrences of `WHERE`, `item_id`, `location_code` (in this order) with no
newline inside either gap. -/
def searchWIL (s : List Char) : Bool :=
  (List.range (s.length + 1)).any fun i =>
    tokenAt "WHERE" s i &&
      ((List.range (s.length + 1)).any fun j =>
        decide (i + 5 ≤ j) && tokenAt "item_id" s j &&
          noNewlineBetween s (i + 5) j &&
          ((List.range (s.length + 1)).any fun k =>
            decide (j + 7 ≤ k) && tokenAt "location_code" s k &&
              noNewlineBetween s (j + 7) k))

/-- One statement passes all four per-statement checks of `validate_sql`. -/
def stmtOk (s : String) : Bool :=
  !forbiddenMatch s.data && safeMatch s.data &&
    !(delFromStock s.data && !searchWIL s.data) && !delFromItems s.data

/-- `[s.strip() for s in sql.split(";") if s.strip()]`. -/
def splitStmts (sql : String) : List String :=
  (((splitSemi sql.data).map String.mk).map pyStrip).filter fun s => s != ""

/-- Model of `validate_sql` (source lines 159-176): split on `;`, strip,
drop empties; reject unless `1 ≤ count ≤ 6`; reject if any statement matches
the denylist, fails the allowlist, is an unconstrained `DELETE FROM stock`,
or is any `DELETE FROM items`; otherwise return the statement list. -/
def validate_sql (sql : String) : Option (List String) :=
  let stmts := splitStmts sql
  if 1 ≤ stmts.length ∧ stmts.length ≤ 6 then
    if stmts.all stmtOk then some stmts else none
  else none

example : validate_sql "SELECT 1" = some ["SELECT 1"] := by decide
example : validate_sql "DROP TABLE items" = none := by decide
example : validate_sql "" = none := by decide
example : validate_sql "DELETE FROM stock" = none := by decide
example : validate_sql "DELETE FROM stock WHERE item_id = 1 AND location_code = 2" =
    some ["DELETE FROM stock WHERE item_id = 1 AND location_code = 2"] := by decide
example : validate_sql "DELETE FROM stock WHERE location_code = 2 AND item_id = 1" = none := by
  decide
example : validate_sql "DELETE FROM items WHERE id = 3" = none := by decide
example : validate_sql "WITH t AS (SELECT 1) SELECT 2" = some ["WITH t AS (SELECT 1) SELECT 2"] := by
  decide
example : validate_sql "update stock set qty = 2 where item_id = 1;; select 3" =
    some ["update stock set qty = 2 where item_id = 1", "select 3"] := by decide
example : validate_sql "pragma foreign_keys = off" = none := by decide
example : validate_sql "VACUUM" = none := by decide
example : validate_sql "a;b;c;d;e;f;g" = none := by decide

/-- Row of `items(id, name, size)`; `size` is `NULL`able. -/
structure Item where
  id : Nat
  name : String
  size : Option String
deriving DecidableEq

/-- Row of `stock(item_id, location_code, qty)`. -/
structure StockRow where
  item_id : Nat
  location_code : String
  qty : Int
deriving DecidableEq

/-- Row of `tx_log(user, sql_text, summary, success)` (timestamp and rowid,
which the executor never reads, are omitted from the embedding). -/
structure LogRow where
  user : String
  sql_text : String
  summary : Option String
  success : Bool
deriving DecidableEq

/-- The data tables of the store (`items`, `locations`, `stock`). -/
structure Store where
  items : List Item
  locations : List String
  stock : List StockRow
deriving DecidableEq

/-- The whole database: data tables plus the audit table `tx_log`. -/
structure DB where
  store : Store
  tx_log : List LogRow
deriving DecidableEq

/-- A store-level execution error (`aiosqlite.Error`). -/
inductive DBErr where
  | sqliteError (msg : String)
deriving DecidableEq

/-- A result row, as the mapping from column names to rendered values that
`run_sql` builds with `dict(r)`. -/
abbrev ResRow := List (String × String)

/-- Abstract semantics of one SQL statement against the data tables: the
SQLite engine, which either fails (statement-level rollback) or returns the
updated tables and the fetched rows.  `run_sql` and the claims are proved
for every such semantics; concrete instances are used as test inputs. -/
abbrev ExecModel := String → Store → Except DBErr (Store × List ResRow)

/-- `Except.isOk`-style flag used for the `success` column. -/
def exceptOk : Except DBErr (List ResRow) → Bool
  | Except.ok _ => true
  | Except.error _ => false

/-- The `for s in stmts` loop of `run_sql` inside the open transaction:
execute statements in order; in read mode `res` is overwritten with each
statement's fetched rows; on the first error stop with the in-transaction
state reached so far (SQLite rolls back only the failing statement). -/
def runSqlLoop (exec1 : ExecModel) (mode : String) :
    List String → Store → List ResRow → Except DBErr (List ResRow) × Store
  | [], st, res => (Except.ok res, st)
  | s :: rest, st, res =>
    match exec1 s st with
    | Except.error e => (Except.error e, st)
    | Except.ok (st2, rows) =>
      runSqlLoop exec1 mode rest st2 (if mode == "read" then rows else res)

/-- Model of `run_sql` (source lines 255-274).  The `try` block runs the
statements in one transaction and commits on success; the `finally` block
then — in every case — inserts one `tx_log` row recording the joined script,
the user, the summary and `int(ok)`, and commits.  Note that the source
never issues a `ROLLBACK`: on failure the `finally` block's `COMMIT`
persists the in-transaction state left by the successfully executed
statements together with the audit row. -/
def run_sql (exec1 : ExecModel) (stmts : List String) (mode user : String)
    (summary : Option String) (db : DB) : Except DBErr (List ResRow) × DB :=
  let sql_all := String.intercalate "; " stmts
  let r := runSqlLoop exec1 mode stmts db.store []
  (r.1, { store := r.2,
          tx_log := db.tx_log ++ [{ user := user, sql_text := sql_all,
                                    summary := summary, success := exceptOk r.1 }] })

/-- `LOCATION_ROWS = "АБВГДЕ"` crossed with columns `1..10`, as seeded by
`init_db` (source lines 56-58 and 89-94). -/
def seedLocations : List String :=
  (("АБВГДЕ".data).map fun r =>
    (List.range 10).map fun c => String.mk [r] ++ toString (c + 1)).flatten

/-- The store right after `init_db`: tables created empty, locations seeded. -/
def initStore : Store :=
  { items := [], locations := seedLocations, stock := [] }

/-- The database right after `init_db`. -/
def initDB : DB := { store := initStore, tx_log := [] }

/-- Database states reachable from the initialized store by executions (via
`run_sql`) of scripts accepted by `validate_sql`. -/
inductive ReachableDB (exec1 : ExecModel) : DB → Prop where
  | init : ReachableDB exec1 initDB
  | step (db : DB) (sql : String) (stmts : List String) (mode user : String)
      (summary : Option String) :
      ReachableDB exec1 db → validate_sql sql = some stmts →
      ReachableDB exec1 (run_sql exec1 stmts mode user summary db).2

/-- The schema invariant of `stock`: every row has `qty > 0`. -/
def stockPositive (st : Store) : Prop := ∀ r ∈ st.stock, 0 < r.qty

/-- The engine enforces `CHECK(qty > 0)` on every successful statement: a
statement that would leave a `stock` row with non-positive quantity fails
instead (SQLite checks the constraint per statement; this is the behaviour
of the `CHECK` clause in `SCHEMA`, source line 74). -/
def CheckEnforced (exec1 : ExecModel) : Prop :=
  ∀ s st st2 rows, exec1 s st = Except.ok (st2, rows) → stockPositive st → stockPositive st2

/-- A statement string used as a concrete test input: a stock insert into
the seeded location `А1` for the catalogued item `1`. -/
def insStmt : String :=
  "INSERT INTO stock(item_id,location_code,qty) VALUES (1,'А1',3)"

/-- A concrete test statement that fails at execution time: it would drive
the quantity of the row written by `insStmt` to `-2`, violating
`CHECK(qty > 0)`. -/
def updStmt : String :=
  "UPDATE stock SET qty = qty - 5 WHERE item_id = 1 AND location_code = 'А1'"

/-- Concrete statement semantics used as a test input.  `insStmt` inserts
the stock row `(1, "А1", 3)` — but only when its foreign keys hold, i.e.
item `1` exists in `items` and location `А1` exists in `locations`
(`PRAGMA foreign_keys = ON` is set by `init_db`); otherwise it fails with
SQLite's foreign-key error.  Any other statement fails with the `CHECK`
constraint error SQLite raises for `updStmt` on that state. -/
def demoExec : ExecModel := fun s st =>
  if s == insStmt then
    if (st.items.any fun it => it.id == 1) && st.locations.contains "А1" then
      Except.ok ({ st with
        stock := st.stock ++ [{ item_id := 1, location_code := "А1", qty := 3 }] }, [])
    else
      Except.error (DBErr.sqliteError "FOREIGN KEY constraint failed")
  else
    Except.error (DBErr.sqliteError "CHECK constraint failed: qty > 0")

/-- A concrete starting database: initialized store plus one catalogued item. -/
def demoDB : DB :=
  { store := { items := [{ id := 1, name := "shirt", size := some "L" }],
               locations := seedLocations, stock := [] },
    tx_log := [] }

/-- Statement semantics that leaves the store untouched (used as a test
input when instantiating universally quantified theorems). -/
def idExec : ExecModel := fun _ st => Except.ok (st, [])

/-- ASCII lower-casing of a string, the case folding used by SQLite's
`NOCASE` collation (only `A`-`Z` fold; Cyrillic compares binary). -/
def lowerAscii (s : String) : List Char := s.data.map Char.toLower

/-- Three-way lexicographic comparison of character lists by code point:
SQLite's binary collation (UTF-8 byte order equals code-point order). -/
def lexCmp : List Char → List Char → Ordering
  | [], [] => Ordering.eq
  | [], _ :: _ => Ordering.lt
  | _ :: _, [] => Ordering.gt
  | a :: as, b :: bs =>
    if a.toNat < b.toNat then Ordering.lt
    else if b.toNat < a.toNat then Ordering.gt
    else lexCmp as bs

/-- `NOCASE` comparison of two strings. -/
def ciCmp (a b : String) : Ordering := lexCmp (lowerAscii a) (lowerAscii b)

/-- Comparison of the nullable `size` column under `ORDER BY`: SQL `NULL`
sorts before every value in ascending order; values compare `NOCASE`. -/
def sizeCmp : Option String → Option String → Ordering
  | none, none => Ordering.eq
  | none, some _ => Ordering.lt
  | some _, none => Ordering.gt
  | some a, some b => ciCmp a b

/-- One row of the `SELECT` in `build_stock_context`, after the
`stock JOIN items` with the item id projected away. -/
structure CtxRow where
  name : String
  size : Option String
  location_code : String
  qty : Int
deriving DecidableEq

/-- `ORDER BY items.name, items.size, stock.location_code` as a three-way
comparison. -/
def rowCmp (a b : CtxRow) : Ordering :=
  (ciCmp a.name b.name).then
    ((sizeCmp a.size b.size).then (ciCmp a.location_code b.location_code))

/-- The order relation used to sort the context rows. -/
def rowLeRel (a b : CtxRow) : Prop := rowCmp a b ≠ Ordering.gt

instance rowLeRelDecidable : DecidableRel rowLeRel := fun a b =>
  inferInstanceAs (Decidable (rowCmp a b ≠ Ordering.gt))

/-- `FROM stock JOIN items ON items.id = stock.item_id`, projecting the
selected columns. -/
def joinRows (items : List Item) : List StockRow → List CtxRow
  | [] => []
  | r :: rest =>
    ((items.filter fun it => it.id == r.item_id).map fun it =>
      { name := it.name, size := it.size,
        location_code := r.location_code, qty := r.qty }) ++ joinRows items rest

/-- The fetched rows of `build_stock_context`: the join, ordered by
item name, then size, then location code. -/
def sortedJoin (st : Store) : List CtxRow :=
  List.insertionSort rowLeRel (joinRows st.items st.stock)

/-- `IFNULL(items.size, 'NULL')`. -/
def renderSize : Option String → String
  | none => "NULL"
  | some s => s

/-- The f-string `f"- {name}, {size}, {location_code}, qty={qty}"`. -/
def renderRow (r : CtxRow) : String :=
  "- " ++ r.name ++ ", " ++ renderSize r.size ++ ", " ++ r.location_code ++
    ", qty=" ++ toString r.qty

/-- The snapshot's line list: the first `limit` rows rendered, then the
truncation marker `- …` exactly when more rows exist. -/
def contextBody (st : Store) (limit : Nat) : List String :=
  ((sortedJoin st).take limit).map renderRow ++
    (if limit < (sortedJoin st).length then ["- …"] else [])

/-- Model of `build_stock_context` (source lines 219-235); the call sites
use the default `limit = 20`. -/
def build_stock_context (st : Store) (limit : Nat) : String :=
  "Текущий склад (первые 20 строк):\n" ++ String.intercalate "\n" (contextBody st limit)

/-- Consistent renumbering of the internal item identifier across `items`
and `stock` — the only columns where the id occurs. -/
def remapIds (f : Nat → Nat) (st : Store) : Store :=
  { items := st.items.map fun it => { it with id := f it.id },
    locations := st.locations,
    stock := st.stock.map fun r => { r with item_id := f r.item_id } }

/-- The JSON object returned by the command-generation collaborator, with
each field optional (`payload.get(...)`). -/
structure LLMPayload where
  error : Option String
  sql : Option String
  mode : Option String
  summary : Option String
deriving DecidableEq

/-- The distinct user-visible outcomes of `on_message`. -/
inductive BotReply where
  | parseErr
  | bizErr (e : String)
  | formatErr
  | rejected
  | dbErr (e : DBErr)
  | readResult (rows : List ResRow)
  | writeOk (summary : Option String)
deriving DecidableEq

/-- Python truthiness of an optional string (`None` and `""` are falsy). -/
def truthyStr : Option String → Bool
  | none => false
  | some s => s != ""

/-- `mode in {"read", "write"}`. -/
def modeOk (mode : Option String) : Bool :=
  mode == some "read" || mode == some "write"

/-- Model of the free-text handler `on_message` (source lines 349-395),
from the point where the collaborator's payload is available; `validator`
abstracts the call to `validate_sql` so that theorems can state that the
format-failure path never consults it.  Branches, in source order: payload
not a dict → parse error; truthy `error` field → failed audit row (with the
user prompt as `sql_text`) and business-rule reply; missing/empty `sql` or
unrecognized `mode` → format failure; validator returning `None` (or a
falsy empty list) → safety rejection; otherwise `run_sql`, with a store
error reported as a database-error reply. -/
def on_message_core (exec1 : ExecModel) (validator : String → Option (List String))
    (payload : Option LLMPayload) (user_prompt username : String) (db : DB) :
    BotReply × DB :=
  match payload with
  | none => (BotReply.parseErr, db)
  | some p =>
    if truthyStr p.error then
      let e := p.error.getD ""
      (BotReply.bizErr e,
        { db with tx_log := db.tx_log ++ [{ user := username, sql_text := user_prompt,
                                            summary := some e, success := false }] })
    else if !truthyStr p.sql || !modeOk p.mode then
      (BotReply.formatErr, db)
    else
      let sql := p.sql.getD ""
      let mode := p.mode.getD ""
      match validator sql with
      | none => (BotReply.rejected, db)
      | some stmts =>
        if stmts.isEmpty then (BotReply.rejected, db)
        else
          let r := run_sql exec1 stmts mode username p.summary db
          match r.1 with
          | Except.error e => (BotReply.dbErr e, r.2)
          | Except.ok rows =>
            if mode == "read" then (BotReply.readResult rows, r.2)
            else (BotReply.writeOk p.summary, r.2)

/-- `on_message` with the real validator plugged in. -/
def on_message (exec1 : ExecModel) (payload : Option LLMPayload)
    (user_prompt username : String) (db : DB) : BotReply × DB :=
  on_message_core exec1 validate_sql payload user_prompt username db

/-- Whole-word, case-insensitive occurrence of `tok` somewhere in `s`. -/
def mentionsTok (tok : String) (s : List Char) : Bool :=
  (List.range (s.length + 1)).any fun i => tokenAt tok s i

/-- Every whole-word occurrence of `location_code` lies strictly before
every whole-word occurrence of `item_id`. -/
def locBeforeItemOnly (s : List Char) : Bool :=
  (List.range (s.length + 1)).all fun j =>
    !tokenAt "item_id" s j ||
      (List.range (s.length + 1)).all fun k =>
        !tokenAt "location_code" s k || decide (k < j)

theorem validate_sql_eq_some {sql : String} {l : List String} :
    validate_sql sql = some l ↔
      l = splitStmts sql ∧ 1 ≤ (splitStmts sql).length ∧
        (splitStmts sql).length ≤ 6 ∧ (splitStmts sql).all stmtOk = true := by
  unfold validate_sql
  simp only []
  split_ifs with h1 h2
  · simp only [Option.some.injEq]
    constructor
    · intro h; exact ⟨h.symm, h1.1, h1.2, h2⟩
    · intro h; exact h.1.symm
  · simp only [reduceCtorEq, false_iff]
    intro h; exact h2 h.2.2.2
  · simp only [reduceCtorEq, false_iff]
    intro h; exact h1 ⟨h.2.1, h.2.2.1⟩

theorem validate_sql_eq_none_of_bad {sql s : String} (hs : s ∈ splitStmts sql)
    (hbad : stmtOk s = false) : validate_sql sql = none := by
  cases hv : validate_sql sql with
  | none => rfl
  | some l =>
    have hall := (validate_sql_eq_some.mp hv).2.2.2
    rw [List.all_eq_true] at hall
    have := hall s hs
    rw [hbad] at this
    exact absurd this (by simp)

/-- C3: if any statement of the split/stripped/non-empty statement list
begins (case-insensitively, up to a word boundary) with one of the
denylisted verbs `DROP`, `ALTER`, `TRUNCATE`, `PRAGMA`, `ATTACH`, `DETACH`
— i.e. matches `FORBIDDEN_PATTERN` — then `validate_sql` rejects the whole
script, returning `none` and hence no partial statement list. -/
theorem validate_sql_rejects_denylisted_verb (sql : String)
    (h : ∃ s ∈ splitStmts sql, forbiddenMatch s.data = true) :
    validate_sql sql = none := by
  obtain ⟨s, hs, hf⟩ := h
  exact validate_sql_eq_none_of_bad hs (by simp [stmtOk, hf])

theorem validate_sql_rejects_denylisted_verb_witness :
    validate_sql "SELECT 1; drop TABLE items" = none :=
  validate_sql_rejects_denylisted_verb _ (by decide)

/-- C4: `validate_sql` rejects whenever the statement list obtained by
splitting on `;`, stripping and discarding empties has length `0` or more
than `6`; conversely, an accepted script returns exactly that list, in
order, with between `1` and `6` statements, all non-empty. -/
theorem validate_sql_statement_count_bounds (sql : String) :
    ((splitStmts sql).length = 0 ∨ 6 < (splitStmts sql).length →
      validate_sql sql = none)
    ∧ (∀ l, validate_sql sql = some l →
        l = splitStmts sql ∧ 1 ≤ l.length ∧ l.length ≤ 6 ∧ ∀ s ∈ l, s ≠ "") := by
  constructor
  · intro h
    cases hv : validate_sql sql with
    | none => rfl
    | some l =>
      obtain ⟨_, h1, h2, _⟩ := validate_sql_eq_some.mp hv
      rcases h with h0 | h7
      · omega
      · omega
  · intro l hv
    obtain ⟨he, h1, h2, _⟩ := validate_sql_eq_some.mp hv
    subst he
    refine ⟨rfl, h1, h2, ?_⟩
    intro s hs
    unfold splitStmts at hs
    have := (List.mem_filter.mp hs).2
    simpa using this

theorem validate_sql_statement_count_bounds_witness :
    validate_sql " ; ; " = none ∧ validate_sql "a;b;c;d;e;f;g" = none :=
  ⟨(validate_sql_statement_count_bounds " ; ; ").1 (Or.inl (by decide)),
   (validate_sql_statement_count_bounds "a;b;c;d;e;f;g").1 (Or.inr (by decide))⟩

/-- C5: `validate_sql` rejects any script with a statement matching
`DELETE FROM stock` whose text does not contain the whole-word sequence
`WHERE … item_id … location_code` (the code's notion of a where-clause
constraining both the item identity and the location code), and rejects any
script with a `DELETE FROM items` statement, unconditionally. -/
theorem validate_sql_rejects_unsafe_deletes (sql : String)
    (h : (∃ s ∈ splitStmts sql, delFromStock s.data = true ∧ searchWIL s.data = false)
       ∨ (∃ s ∈ splitStmts sql, delFromItems s.data = true)) :
    validate_sql sql = none := by
  rcases h with ⟨s, hs, hd, hw⟩ | ⟨s, hs, hd⟩
  · exact validate_sql_eq_none_of_bad hs (by simp [stmtOk, hd, hw])
  · exact validate_sql_eq_none_of_bad hs (by simp [stmtOk, hd])

theorem validate_sql_rejects_unsafe_deletes_witness :
    validate_sql "DELETE FROM stock WHERE item_id = 7" = none
    ∧ validate_sql "DELETE FROM items WHERE item_id = 7 AND location_code = 1" = none :=
  ⟨validate_sql_rejects_unsafe_deletes _ (Or.inl (by decide)),
   validate_sql_rejects_unsafe_deletes _ (Or.inr (by decide))⟩

/-- C6: every statement of an accepted script matches `SAFE_SQL_PATTERN` —
it begins (case-insensitively) with `SELECT`, `INSERT`, `UPDATE` or
`DELETE`, optionally prefixed by a `WITH …` clause whose body is followed by
one of those verbs at a word boundary; and any script containing a
statement not of this shape is rejected. -/
theorem validate_sql_accepts_only_dml_shapes (sql : String) :
    ((∃ s ∈ splitStmts sql, safeMatch s.data = false) → validate_sql sql = none)
    ∧ (∀ l, validate_sql sql = some l → ∀ s ∈ l, safeMatch s.data = true) := by
  constructor
  · intro ⟨s, hs, hbad⟩
    exact validate_sql_eq_none_of_bad hs (by simp [stmtOk, hbad])
  · intro l hv s hsl
    obtain ⟨he, _, _, hall⟩ := validate_sql_eq_some.mp hv
    subst he
    rw [List.all_eq_true] at hall
    have := hall s hsl
    unfold stmtOk at this
    simp only [Bool.and_eq_true] at this
    exact this.1.1.2

theorem validate_sql_accepts_only_dml_shapes_witness :
    validate_sql "VACUUM" = none ∧ safeMatch "SELECT 1".data = true :=
  ⟨(validate_sql_accepts_only_dml_shapes "VACUUM").1 (by decide),
   (validate_sql_accepts_only_dml_shapes "SELECT 1").2 ["SELECT 1"] (by decide)
     "SELECT 1" (by decide)⟩

/-- C10: the anti-mass-delete check demands the whole-word occurrences in
the order `WHERE`, then `item_id`, then `location_code`.  Hence a script
with a `DELETE FROM stock` statement that mentions both `item_id` and
`location_code` but in which every `location_code` occurrence lies strictly
before every `item_id` occurrence is rejected: co-occurrence in the wrong
order does not satisfy the check. -/
theorem validate_sql_requires_ordered_item_location_tokens (sql : String)
    (h : ∃ s ∈ splitStmts sql, delFromStock s.data = true ∧
      mentionsTok "item_id" s.data = true ∧ mentionsTok "location_code" s.data = true ∧
      locBeforeItemOnly s.data = true) :
    validate_sql sql = none := by
  obtain ⟨s, hs, hdel, _, _, hord⟩ := h
  have hsearch : searchWIL s.data = false := by
    cases hw : searchWIL s.data with
    | false => rfl
    | true =>
      exfalso
      simp only [searchWIL, List.any_eq_true, List.mem_range, Bool.and_eq_true,
        decide_eq_true_eq] at hw
      obtain ⟨i, _, _, j, hj, ⟨⟨_, hitem⟩, _⟩, k, hk, ⟨⟨hjk, hloc⟩, _⟩⟩ := hw
      simp only [locBeforeItemOnly, List.all_eq_true, List.mem_range] at hord
      have h1 := hord j hj
      rw [Bool.or_eq_true] at h1
      rcases h1 with h1 | h1
      · rw [hitem] at h1; exact absurd h1 (by simp)
      · rw [List.all_eq_true] at h1
        have h2 := h1 k (List.mem_range.mpr hk)
        rw [Bool.or_eq_true] at h2
        rcases h2 with h2 | h2
        · rw [hloc] at h2; exact absurd h2 (by simp)
        · rw [decide_eq_true_eq] at h2; omega
  exact validate_sql_eq_none_of_bad hs (by simp [stmtOk, hdel, hsearch])

theorem validate_sql_requires_ordered_item_location_tokens_witness :
    validate_sql "DELETE FROM stock WHERE location_code = 1 AND item_id = 7" = none :=
  validate_sql_requires_ordered_item_location_tokens _ (by decide)

/-- C2: every call of `run_sql` appends exactly one audit row to `tx_log` —
whatever the outcome — recording the acting user, the full script joined
with `"; "`, the supplied summary, and `success` true exactly when every
statement executed without error (the `ok` flag set right after the
transaction's `COMMIT`). -/
theorem run_sql_appends_exactly_one_audit (exec1 : ExecModel) (stmts : List String)
    (mode user : String) (summary : Option String) (db : DB) :
    (run_sql exec1 stmts mode user summary db).2.tx_log
      = db.tx_log ++ [{ user := user, sql_text := String.intercalate "; " stmts,
                        summary := summary,
                        success := exceptOk (run_sql exec1 stmts mode user summary db).1 }] :=
  rfl

/-- C1 is false on the code: `run_sql` never issues a `ROLLBACK`, and its
`finally` block commits the still-open data transaction together with the
audit row.  Concretely, the two-statement script `[insStmt, updStmt]` is
accepted by `validate_sql`; run against `demoDB` (initialized locations,
item `1` catalogued, empty stock), the first statement's insert succeeds —
its foreign keys hold since location `А1` is seeded — and the second fails
the `CHECK(qty > 0)` constraint; the call reports failure, yet afterwards
the store differs from the starting store — the partial write
`(1, "А1", 3)` persists. -/
theorem run_sql_commits_partial_writes_on_error :
    validate_sql (insStmt ++ "; " ++ updStmt) = some [insStmt, updStmt]
    ∧ exceptOk (run_sql demoExec [insStmt, updStmt] "write" "user1" (some "note") demoDB).1 = false
    ∧ (run_sql demoExec [insStmt, updStmt] "write" "user1" (some "note") demoDB).2.store
        ≠ demoDB.store
    ∧ (run_sql demoExec [insStmt, updStmt] "write" "user1" (some "note") demoDB).2.store.stock
        = [{ item_id := 1, location_code := "А1", qty := 3 }] := by
  refine ⟨by decide, by decide, by decide, by decide⟩

theorem runSqlLoop_preserves_stockPositive (exec1 : ExecModel) (h : CheckEnforced exec1)
    (mode : String) (stmts : List String) :
    ∀ (st : Store) (res : List ResRow),
      stockPositive st → stockPositive (runSqlLoop exec1 mode stmts st res).2 := by
  induction stmts with
  | nil => intro st res hp; exact hp
  | cons s rest ih =>
    intro st res hp
    unfold runSqlLoop
    cases hex : exec1 s st with
    | error e => exact hp
    | ok p =>
      obtain ⟨st2, rows⟩ := p
      exact ih st2 _ (h s st st2 rows hex hp)

/-- C9: in every database state reachable from the initialized store by
`run_sql` executions of validated scripts, every `stock` row has `qty > 0`
— assuming the engine enforces the schema's `CHECK(qty > 0)` on each
successful statement.  This holds on every execution path, including failed
scripts whose partial writes the buggy `finally` block commits, because the
committed partial state is itself a chain of successful statements. -/
theorem reachable_states_stock_positive (exec1 : ExecModel) (h : CheckEnforced exec1)
    (db : DB) (hr : ReachableDB exec1 db) : stockPositive db.store := by
  induction hr with
  | init =>
    intro r hrr
    simp [initDB, initStore] at hrr
  | step db2 sql stmts mode user summary hprev hval ih =>
    exact runSqlLoop_preserves_stockPositive exec1 h mode stmts db2.store [] ih

theorem reachable_states_stock_positive_witness :
    CheckEnforced idExec ∧ stockPositive initDB.store := by
  have hce : CheckEnforced idExec := by
    intro s st st2 rows hok hp
    unfold idExec at hok
    injection hok with h1
    injection h1 with h2 h3
    rw [← h2]
    exact hp
  exact ⟨hce, reachable_states_stock_positive idExec hce initDB ReachableDB.init⟩

/-- C8: the pipeline is inert on pre-execution failures.  If the payload is
not a dict, or lacks a usable SQL body / recognized mode, the handler
returns with the database untouched — no statement executed, no audit row —
and the result is the same for every validator, i.e. the validator is never
consulted.  If the format is fine but `validate_sql` rejects, the handler
likewise returns with the database untouched. -/
theorem on_message_no_effect_on_format_or_validation_failure
    (exec1 : ExecModel) (p : LLMPayload) (user_prompt username : String) (db : DB) :
    (∀ validator, on_message_core exec1 validator none user_prompt username db
        = (BotReply.parseErr, db))
    ∧ (truthyStr p.error = false → (truthyStr p.sql = false ∨ modeOk p.mode = false) →
        ∀ validator, on_message_core exec1 validator (some p) user_prompt username db
          = (BotReply.formatErr, db))
    ∧ (truthyStr p.error = false → truthyStr p.sql = true → modeOk p.mode = true →
        validate_sql (p.sql.getD "") = none →
        on_message exec1 (some p) user_prompt username db = (BotReply.rejected, db)) := by
  refine ⟨fun _ => rfl, ?_, ?_⟩
  · intro herr hfmt validator
    rcases hfmt with hbad | hbad <;> simp [on_message_core, herr, hbad]
  · intro herr hsql hmode hval
    simp [on_message, on_message_core, herr, hsql, hmode, hval]

theorem on_message_no_effect_witness :
    on_message_core idExec validate_sql
        (some { error := none, sql := none, mode := none, summary := none })
        "hi" "u" demoDB
      = (BotReply.formatErr, demoDB)
    ∧ on_message idExec
        (some { error := none, sql := some "DROP TABLE items", mode := some "write",
                summary := none })
        "hi" "u" demoDB
      = (BotReply.rejected, demoDB) :=
  ⟨(on_message_no_effect_on_format_or_validation_failure idExec
      { error := none, sql := none, mode := none, summary := none }
      "hi" "u" demoDB).2.1 rfl (Or.inl rfl) validate_sql,
   (on_message_no_effect_on_format_or_validation_failure idExec
      { error := none, sql := some "DROP TABLE items", mode := some "write",
        summary := none }
      "hi" "u" demoDB).2.2 rfl rfl rfl (by decide)⟩

/-- A three-way comparator that induces a total preorder. -/
structure LawfulCmp {α : Type} (cmp : α → α → Ordering) : Prop where
  swap_eq : ∀ a b, cmp a b = (cmp b a).swap
  lt_trans : ∀ a b c, cmp a b = Ordering.lt → cmp b c = Ordering.lt →
    cmp a c = Ordering.lt
  eq_congr : ∀ a b c, cmp a b = Ordering.eq → cmp b c = cmp a c

theorem ordering_swap_then (o1 o2 : Ordering) : (o1.then o2).swap = o1.swap.then o2.swap := by
  cases o1 <;> cases o2 <;> rfl

theorem ordering_then_eq_lt {o1 o2 : Ordering} :
    o1.then o2 = Ordering.lt ↔
      o1 = Ordering.lt ∨ (o1 = Ordering.eq ∧ o2 = Ordering.lt) := by
  cases o1 <;> simp [Ordering.then]

theorem ordering_then_eq_eq {o1 o2 : Ordering} :
    o1.then o2 = Ordering.eq ↔ o1 = Ordering.eq ∧ o2 = Ordering.eq := by
  cases o1 <;> simp [Ordering.then]

theorem LawfulCmp.eq_congr_right {α : Type} {cmp : α → α → Ordering} (h : LawfulCmp cmp)
    {b c : α} (hbc : cmp b c = Ordering.eq) (a : α) : cmp a b = cmp a c := by
  have h1 : cmp c b = Ordering.eq := by rw [h.swap_eq c b, hbc]; rfl
  have h2 := h.eq_congr c b a h1
  calc cmp a b = (cmp b a).swap := h.swap_eq a b
    _ = (cmp c a).swap := by rw [h2]
    _ = cmp a c := (h.swap_eq a c).symm

theorem LawfulCmp.le_trans {α : Type} {cmp : α → α → Ordering} (h : LawfulCmp cmp)
    {a b c : α} (h1 : cmp a b ≠ Ordering.gt) (h2 : cmp b c ≠ Ordering.gt) :
    cmp a c ≠ Ordering.gt := by
  cases hab : cmp a b with
  | gt => exact absurd hab h1
  | lt =>
    cases hbc : cmp b c with
    | gt => exact absurd hbc h2
    | lt => rw [h.lt_trans a b c hab hbc]; simp
    | eq => rw [← h.eq_congr_right hbc a, hab]; simp
  | eq =>
    rw [← h.eq_congr a b c hab]
    exact h2

theorem LawfulCmp.total {α : Type} {cmp : α → α → Ordering} (h : LawfulCmp cmp)
    (a b : α) : cmp a b ≠ Ordering.gt ∨ cmp b a ≠ Ordering.gt := by
  cases hab : cmp a b with
  | lt => exact Or.inl (by simp)
  | eq => exact Or.inl (by simp)
  | gt =>
    right
    rw [h.swap_eq b a, hab]
    simp [Ordering.swap]

theorem LawfulCmp.comap {α β : Type} {cmp : β → β → Ordering} (h : LawfulCmp cmp)
    (f : α → β) : LawfulCmp fun a b => cmp (f a) (f b) :=
  ⟨fun a b => h.swap_eq (f a) (f b),
   fun a b c => h.lt_trans (f a) (f b) (f c),
   fun a b c => h.eq_congr (f a) (f b) (f c)⟩

theorem LawfulCmp.then_comp {α : Type} {cmp1 cmp2 : α → α → Ordering}
    (h1 : LawfulCmp cmp1) (h2 : LawfulCmp cmp2) :
    LawfulCmp fun a b => (cmp1 a b).then (cmp2 a b) := by
  constructor
  · intro a b
    rw [h1.swap_eq a b, h2.swap_eq a b, ← ordering_swap_then]
  · intro a b c hab hbc
    rw [ordering_then_eq_lt] at hab hbc ⊢
    rcases hab with hab | ⟨hab, hab2⟩
    · rcases hbc with hbc | ⟨hbc, hbc2⟩
      · exact Or.inl (h1.lt_trans a b c hab hbc)
      · exact Or.inl ((h1.eq_congr_right hbc a).symm.trans hab)
    · rcases hbc with hbc | ⟨hbc, hbc2⟩
      · exact Or.inl ((h1.eq_congr a b c hab).symm.trans hbc)
      · exact Or.inr ⟨(h1.eq_congr a b c hab).symm.trans hbc,
          h2.lt_trans a b c hab2 hbc2⟩
  · intro a b c hab
    rw [ordering_then_eq_eq] at hab
    rw [h1.eq_congr a b c hab.1, h2.eq_congr a b c hab.2]

theorem lexCmp_swap : ∀ a b : List Char, lexCmp a b = (lexCmp b a).swap
  | [], [] => rfl
  | [], _ :: _ => rfl
  | _ :: _, [] => rfl
  | a :: as, b :: bs => by
    unfold lexCmp
    rcases Nat.lt_trichotomy a.toNat b.toNat with h | h | h
    · rw [if_pos h, if_neg (by omega), if_pos h]
      rfl
    · rw [if_neg (by omega), if_neg (by omega), if_neg (by omega), if_neg (by omega)]
      exact lexCmp_swap as bs
    · rw [if_neg (by omega), if_pos h, if_pos h]
      rfl

theorem lexCmp_lt_trans : ∀ a b c : List Char, lexCmp a b = Ordering.lt →
    lexCmp b c = Ordering.lt → lexCmp a c = Ordering.lt
  | [], [], _, h1, _ => by simp [lexCmp] at h1
  | [], _ :: _, [], _, h2 => by simp [lexCmp] at h2
  | [], _ :: _, _ :: _, _, _ => rfl
  | _ :: _, [], _, h1, _ => by simp [lexCmp] at h1
  | _ :: _, _ :: _, [], _, h2 => by simp [lexCmp] at h2
  | a :: as, b :: bs, c :: cs, h1, h2 => by
    unfold lexCmp at h1 h2 ⊢
    by_cases hab : a.toNat < b.toNat <;> by_cases hbc : b.toNat < c.toNat
    · rw [if_pos (Nat.lt_trans hab hbc)]
    · by_cases hcb : c.toNat < b.toNat
      · rw [if_neg hbc, if_pos hcb] at h2
        exact absurd h2 (by simp)
      · rw [if_pos (by omega : a.toNat < c.toNat)]
    · by_cases hba : b.toNat < a.toNat
      · rw [if_neg hab, if_pos hba] at h1
        exact absurd h1 (by simp)
      · rw [if_pos (by omega : a.toNat < c.toNat)]
    · by_cases hba : b.toNat < a.toNat
      · rw [if_neg hab, if_pos hba] at h1
        exact absurd h1 (by simp)
      · by_cases hcb : c.toNat < b.toNat
        · rw [if_neg hbc, if_pos hcb] at h2
          exact absurd h2 (by simp)
        · rw [if_neg hab, if_neg hba] at h1
          rw [if_neg hbc, if_neg hcb] at h2
          rw [if_neg (by omega : ¬a.toNat < c.toNat),
            if_neg (by omega : ¬c.toNat < a.toNat)]
          exact lexCmp_lt_trans as bs cs h1 h2

theorem lexCmp_eq_congr : ∀ a b c : List Char, lexCmp a b = Ordering.eq →
    lexCmp b c = lexCmp a c
  | [], [], _, _ => rfl
  | [], _ :: _, _, h => by simp [lexCmp] at h
  | _ :: _, [], _, h => by simp [lexCmp] at h
  | _ :: _, _ :: _, [], _ => rfl
  | a :: as, b :: bs, c :: cs, h => by
    unfold lexCmp at h ⊢
    by_cases hab : a.toNat < b.toNat
    · rw [if_pos hab] at h
      exact absurd h (by simp)
    · by_cases hba : b.toNat < a.toNat
      · rw [if_neg hab, if_pos hba] at h
        exact absurd h (by simp)
      · rw [if_neg hab, if_neg hba] at h
        have heq : a.toNat = b.toNat := by omega
        rw [heq, lexCmp_eq_congr as bs cs h]

theorem lexCmp_lawful : LawfulCmp lexCmp :=
  ⟨lexCmp_swap, lexCmp_lt_trans, lexCmp_eq_congr⟩

theorem ciCmp_lawful : LawfulCmp ciCmp := lexCmp_lawful.comap lowerAscii

theorem sizeCmp_swap : ∀ a b, sizeCmp a b = (sizeCmp b a).swap
  | none, none => rfl
  | none, some _ => rfl
  | some _, none => rfl
  | some x, some y => ciCmp_lawful.swap_eq x y

theorem sizeCmp_lt_trans : ∀ a b c, sizeCmp a b = Ordering.lt →
    sizeCmp b c = Ordering.lt → sizeCmp a c = Ordering.lt
  | none, none, _, h1, _ => by simp [sizeCmp] at h1
  | none, some _, none, _, h2 => by simp [sizeCmp] at h2
  | none, some _, some _, _, _ => rfl
  | some _, none, _, h1, _ => by simp [sizeCmp] at h1
  | some _, some _, none, _, h2 => by simp [sizeCmp] at h2
  | some x, some y, some z, h1, h2 => ciCmp_lawful.lt_trans x y z h1 h2

theorem sizeCmp_eq_congr : ∀ a b c, sizeCmp a b = Ordering.eq →
    sizeCmp b c = sizeCmp a c
  | none, none, _, _ => rfl
  | none, some _, _, h => by simp [sizeCmp] at h
  | some _, none, _, h => by simp [sizeCmp] at h
  | some _, some _, none, _ => rfl
  | some x, some y, some z, h => ciCmp_lawful.eq_congr x y z h

theorem sizeCmp_lawful : LawfulCmp sizeCmp :=
  ⟨sizeCmp_swap, sizeCmp_lt_trans, sizeCmp_eq_congr⟩

theorem rowCmp_lawful : LawfulCmp rowCmp :=
  (ciCmp_lawful.comap fun r : CtxRow => r.name).then_comp
    ((sizeCmp_lawful.comap fun r : CtxRow => r.size).then_comp
      (ciCmp_lawful.comap fun r : CtxRow => r.location_code))

theorem filter_map_remap (f : Nat → Nat) (hf : ∀ a b, f a = f b → a = b)
    (m : Nat) (loc : String) (q : Int) : ∀ items : List Item,
    ((items.map fun it => { it with id := f it.id }).filter fun it =>
        it.id == f m).map
      (fun it => ({ name := it.name, size := it.size, location_code := loc,
                    qty := q } : CtxRow))
      = ((items.filter fun it => it.id == m).map
          fun it => ({ name := it.name, size := it.size, location_code := loc,
                       qty := q } : CtxRow)) := by
  intro items
  induction items with
  | nil => rfl
  | cons it its ih =>
    have hb : (f it.id == f m) = (it.id == m) := by
      by_cases h : it.id = m
      · subst h; simp
      · have hne : f it.id ≠ f m := fun hc => h (hf _ _ hc)
        simp [h, hne]
    simp only [List.map_cons, List.filter_cons]
    cases hc : it.id == m with
    | true =>
      have hcond : (({ it with id := f it.id } : Item).id == f m) = true := by
        dsimp only []
        rw [hb, hc]
      rw [hcond]
      simp [ih]
    | false =>
      have hcond : (({ it with id := f it.id } : Item).id == f m) = false := by
        dsimp only []
        rw [hb, hc]
      rw [hcond]
      simpa using ih

theorem joinRows_remap (f : Nat → Nat) (hf : ∀ a b, f a = f b → a = b)
    (items : List Item) : ∀ stock : List StockRow,
    joinRows (items.map fun it => { it with id := f it.id })
        (stock.map fun r => { r with item_id := f r.item_id })
      = joinRows items stock := by
  intro stock
  induction stock with
  | nil => rfl
  | cons r rest ih =>
    simp only [List.map_cons]
    unfold joinRows
    rw [ih]
    have := filter_map_remap f hf r.item_id r.location_code r.qty items
    exact congrArg (· ++ joinRows items rest) this

theorem sortedJoin_remap (f : Nat → Nat) (hf : ∀ a b, f a = f b → a = b)
    (st : Store) : sortedJoin (remapIds f st) = sortedJoin st := by
  unfold sortedJoin remapIds
  rw [joinRows_remap f hf]

/-- C7: `build_stock_context` is a pure function of the store — identical
store states give byte-identical snapshots; the fetched rows are sorted by
item name, then size (`NULL` first), then location code; at most `limit`
rows are listed; the truncation marker line `- …` is appended exactly when
more than `limit` rows exist; and the snapshot does not depend on the
internal numeric item identifier: consistently renumbering the ids through
any injection leaves the snapshot unchanged. -/
theorem build_stock_context_props (st : Store) (lim : Nat) (f : Nat → Nat)
    (hf : ∀ a b, f a = f b → a = b) :
    (∀ st2, st2 = st → build_stock_context st2 lim = build_stock_context st lim)
    ∧ List.Sorted rowLeRel (sortedJoin st)
    ∧ ((sortedJoin st).take lim).length ≤ lim
    ∧ (lim < (sortedJoin st).length →
        contextBody st lim = ((sortedJoin st).take lim).map renderRow ++ ["- …"])
    ∧ ((sortedJoin st).length ≤ lim →
        contextBody st lim = (sortedJoin st).map renderRow)
    ∧ build_stock_context (remapIds f st) lim = build_stock_context st lim := by
  refine ⟨fun st2 h => by rw [h], ?_, ?_, ?_, ?_, ?_⟩
  · letI : IsTotal CtxRow rowLeRel := ⟨fun a b => rowCmp_lawful.total a b⟩
    letI : IsTrans CtxRow rowLeRel := ⟨fun a b c => rowCmp_lawful.le_trans⟩
    exact List.sorted_insertionSort rowLeRel _
  · rw [List.length_take]
    omega
  · intro h
    unfold contextBody
    rw [if_pos h]
  · intro h
    unfold contextBody
    rw [if_neg (by omega), List.take_of_length_le h, List.append_nil]
  · unfold build_stock_context contextBody
    rw [sortedJoin_remap f hf]

/-- A concrete store exercising the context assembler: two items, two stock
rows, unsorted in table order. -/
def ctxDemoStore : Store :=
  { items := [{ id := 2, name := "Shirt", size := some "L" },
              { id := 1, name := "belt", size := none }],
    locations := ["A1", "B2"],
    stock := [{ item_id := 1, location_code := "B2", qty := 4 },
              { item_id := 2, location_code := "A1", qty := 2 }] }

theorem build_stock_context_props_witness :
    build_stock_context (remapIds Nat.succ ctxDemoStore) 20
      = build_stock_context ctxDemoStore 20
    ∧ List.Sorted rowLeRel (sortedJoin ctxDemoStore) :=
  ⟨(build_stock_context_props ctxDemoStore 20 Nat.succ fun _ _ h => Nat.succ.inj h).2.2.2.2.2,
   (build_stock_context_props ctxDemoStore 20 Nat.succ fun _ _ h => Nat.succ.inj h).2.1⟩
